import Mathlib

/-!
Verification of the dependency-aware Python source bundler
(onlinejudge_verify/languages/python_bundle.py) and the dependency-listing
service (onlinejudge_verify/languages/python.py).

Modelling conventions (shallow embedding):
* A filesystem path is a list of components (`Path`); `str(path)` and `Path`
  equality coincide with component-list equality, and `.resolve()` is the
  identity (all paths in a scenario are given already resolved).
* A Python source file is abstracted as the output of the external syntax
  tree service: its raw text split into lines (as by `str.splitlines`, so no
  element contains a newline character) together with the list of import
  statement nodes, in visitor order, each carrying its `lineno` (1-based),
  `col_offset` and payload.
* Python sets are modelled as duplicate-free lists built with `sAdd`
  (membership-guarded append), so `len` is list length; dicts are
  association lists.  Python exceptions are modelled by `Except`:
  `BundleError.keyError` is a `KeyError`, `BundleError.fileNotFound` an
  `FileNotFoundError`, `BundleError.attrError` the `AttributeError` raised
  by `find_module(None)`.  `BundleError.fuelOut` is a modelling artifact:
  the recursive interpreter carries a fuel budget, and every theorem about
  a run uses a budget large enough that the result is the program's.
-/

namespace PyVerify

/-! ### Generic Python-style helpers -/

/-- Python list slice `l[a:b]` for non-negative indices (with clamping). -/
def pySlice {α : Type} (l : List α) (a b : Nat) : List α :=
  (l.drop a).take (b - a)

/-- Python `' ' * n`. -/
def spaces : Nat → String
  | 0 => ""
  | n + 1 => spaces n ++ " "

/-- Python `sep.join(ls)`. -/
def pyJoin (sep : String) : List String → String
  | [] => ""
  | [s] => s
  | s :: rest => s ++ sep ++ pyJoin sep rest

/-- Helper for `splitLines`: the accumulator holds the current line reversed. -/
def splitLinesAux : List Char → List Char → List String
  | [], acc => if acc.isEmpty then [] else [String.mk acc.reverse]
  | c :: rest, acc =>
    if c = '\n' then String.mk acc.reverse :: splitLinesAux rest []
    else splitLinesAux rest (c :: acc)

/-- Python `s.splitlines()` (for text whose only line boundary is `'\n'`,
which is the invariant for all text the bundler manipulates). -/
def splitLines (s : String) : List String := splitLinesAux s.data []

/-- Python `set.add`: append an element unless already present. -/
def sAdd {α : Type} [DecidableEq α] (s : List α) (x : α) : List α :=
  if x ∈ s then s else s ++ [x]

/-- Python set union / `set.update`: add all elements of `new` to `s`. -/
def sUnion {α : Type} [DecidableEq α] (s new : List α) : List α :=
  new.foldl sAdd s

/-- Python `set(l)` (and `list(set(l))`): duplicate-free list of `l`'s
elements.  Python's set iteration order is unspecified; this model keeps
first occurrences in order, and all claims about such values are
membership claims. -/
def sOfList {α : Type} [DecidableEq α] (l : List α) : List α := sUnion [] l

/-- Python dict assignment `d[k] = v` on an association list. -/
def dictInsert {α β : Type} [DecidableEq α] (d : List (α × β)) (k : α) (v : β) :
    List (α × β) :=
  match d with
  | [] => [(k, v)]
  | (k2, v2) :: rest =>
    if k2 = k then (k, v) :: rest else (k2, v2) :: dictInsert rest k v

/-- Lookup `d[k]` for a `defaultdict(set)`: missing keys read as the empty
set (the side effect of materialising the default entry is unobservable). -/
def ddGet (d : List (String × List String)) (k : String) : List String :=
  match d with
  | [] => []
  | (k2, v) :: rest => if k2 = k then v else ddGet rest k

/-- Does the first list occur as a contiguous block at the head of the second? -/
def listIsPre : List Char → List Char → Bool
  | [], _ => true
  | _ :: _, [] => false
  | a :: as, b :: bs => a == b && listIsPre as bs

/-- Does `sub` occur as a contiguous block anywhere in the second list?
Models Python's `sub in s` for strings. -/
def hasSubBlock (sub : List Char) : List Char → Bool
  | [] => sub.isEmpty
  | c :: rest => listIsPre sub (c :: rest) || hasSubBlock sub rest

/-- Python `sub in s` on strings. -/
def strIn (sub s : String) : Bool := hasSubBlock sub.data s.data

/-! ### Paths -/

/-- A filesystem path, as its list of components (see header conventions). -/
abbrev Path := List String

/-- Python `str(path)`, for error messages. -/
def pathToString (p : Path) : String := pyJoin "/" p

/-- Index (from the front) of the last `'.'` of a name, if any. -/
def lastDotIdx (cs : List Char) : Option Nat :=
  match cs.reverse.findIdx? (fun c => c = '.') with
  | none => none
  | some r => some (cs.length - 1 - r)

/-- The `pathlib` suffix of a final path component: `name[i:]` where `i` is
the index of the last dot, provided `0 < i < len(name) - 1`; else `""`.
So `"a.pyx"` has suffix `".pyx"`, `".py"` and `"a."` have suffix `""`. -/
def nameSuffix (name : String) : String :=
  match lastDotIdx name.data with
  | none => ""
  | some i =>
    if 0 < i ∧ i + 1 < name.data.length then String.mk (name.data.drop i) else ""

/-- The `pathlib` stem of a final path component: the name with its suffix
removed. -/
def nameStem (name : String) : String :=
  String.mk (name.data.take (name.data.length - (nameSuffix name).data.length))

/-- Helper for `pySplitDots`: the accumulator holds the current piece
reversed. -/
def splitDotsAux : List Char → List Char → List String
  | [], acc => [String.mk acc.reverse]
  | c :: rest, acc =>
    if c = '.' then String.mk acc.reverse :: splitDotsAux rest []
    else splitDotsAux rest (c :: acc)

/-- Python `m.split('.')` (so `"" .split('.')` is `[""]`). -/
def pySplitDots (m : String) : List String := splitDotsAux m.data []

/-- Model of `Path(*parts).with_suffix('.py')` for `parts` produced by
`module.split('.')` (whose components contain no dot, so `with_suffix`
appends `".py"` to the last component). -/
def withSuffixPy (parts : List String) : Path :=
  parts.dropLast ++ [parts.getLastD "" ++ ".py"]

/-! ### Filesystem and syntax-tree model -/

/-- An import statement node as delivered by the syntax tree service:
`imp` is `import n1, n2, ...` (an `ast.Import` node, `names` being the alias
names), `impFrom` is `from module import n1, ...` (an `ast.ImportFrom` node
with its relative-import `level`, `module` being `None` for `from . import x`
forms). -/
inductive Stmt : Type
  | imp (lineno col : Nat) (names : List String)
  | impFrom (lineno col : Nat) (level : Nat) (module : Option String)
      (names : List String)
deriving DecidableEq, Repr

/-- A filesystem entry: a Python source file (its text's lines plus its
parsed import nodes, see header conventions) or a directory. -/
inductive FSEntry : Type
  | file (lines : List String) (stmts : List Stmt)
  | dir
deriving DecidableEq, Repr

/-- A filesystem: a finite map from paths to entries. -/
structure FS : Type where
  entries : List (Path × FSEntry)
deriving DecidableEq, Repr

/-- Lookup of a path's entry. -/
def FS.find (fs : FS) (p : Path) : Option FSEntry := fs.entries.lookup p

/-- Python `path.exists()` (true for files and directories alike). -/
def FS.existsAny (fs : FS) (p : Path) : Bool := (fs.find p).isSome

/-- Python `path.is_dir()`. -/
def FS.isDir (fs : FS) (p : Path) : Bool :=
  match fs.find p with
  | some .dir => true
  | _ => false

/-- Reading and parsing a file: `open(p).read()` followed by `ast.parse`. -/
def FS.readFile (fs : FS) (p : Path) : Option (List String × List Stmt) :=
  match fs.find p with
  | some (.file lines stmts) => some (lines, stmts)
  | _ => none

/-- Python `path.iterdir()`: the (name, entry) children of a directory, in
the (deterministic in this model) order of the entry table. -/
def FS.iterdir (fs : FS) (p : Path) : List (String × FSEntry) :=
  fs.entries.filterMap fun q =>
    if q.1 ≠ [] ∧ q.1.dropLast = p then some (q.1.getLastD "", q.2) else none

/-! ### Bundler data model (class PythonBundler, python_bundle.py) -/

/-- Python exceptions and the interpreter's fuel marker (see header). -/
inductive BundleError : Type
  | fuelOut
  | keyError
  | fileNotFound
  | attrError
deriving DecidableEq, Repr

/-- The mutable fields of a `PythonBundler` instance (one bundling session):
`processed_files`, `bundled_code`, `top_level_imports_paths`,
`top_level_imports_modules` and `top_level_imports_from`, in the source's
names.  String path keys (`str(file_path)`) coincide with `Path` keys in
this model, see header conventions. -/
structure BState : Type where
  processed_files : List Path
  bundled_code : List (Path × String)
  top_level_imports_paths : List Path
  top_level_imports_modules : List String
  top_level_imports_from : List (String × List String)
deriving DecidableEq, Repr

/-- The state of a freshly constructed `PythonBundler`. -/
def initState : BState := ⟨[], [], [], [], []⟩

/-- One element of `ImportProcessor.imports`: the 5-tuple
`(node.lineno, node.col_offset, str(module_path), imported_code,
is_duplicate)`.  A skip record `(lineno, col_offset, '', '', True)` is
represented with `module_path = []` and `imported_code = ""`. -/
structure ImportRecord : Type where
  lineno : Nat
  col_offset : Nat
  module_path : Path
  imported_code : String
  is_duplicate : Bool
deriving DecidableEq, Repr

/-- Strict lexicographic order on the sort key `(x[0], x[1])` used by
`processor.imports.sort`. -/
def recLt (a b : ImportRecord) : Bool :=
  a.lineno < b.lineno || (a.lineno == b.lineno && a.col_offset < b.col_offset)

/-- Stable insertion into a sorted record list (an earlier element stays
before later elements with an equal key, as with Python's stable sort). -/
def sortInsert (x : ImportRecord) : List ImportRecord → List ImportRecord
  | [] => [x]
  | y :: ys => if recLt y x then y :: sortInsert x ys else x :: y :: ys

/-- Stable sort of `processor.imports` by `(lineno, col_offset)`. -/
def sortRecords : List ImportRecord → List ImportRecord
  | [] => []
  | x :: xs => sortInsert x (sortRecords xs)

/-- The splice loop of `process_imports` (lines 117-136): walk the sorted
records, copying `lines[last_import_line:lineno-1]` before each record,
inserting the re-indented imported code for non-duplicates, and dropping
each record's own source line; finally append `lines[last_import_line:]`.
The `get_relative_path` call of line 126 only feeds commented-out marker
lines and has no observable effect, so it is omitted. -/
def spliceLoop (lines : List String) :
    List ImportRecord → Nat → List String → List String
  | [], last, acc => acc ++ lines.drop last
  | r :: rs, last, acc =>
    let acc := acc ++ pySlice lines last (r.lineno - 1)
    let acc :=
      if !r.is_duplicate then
        let indent := spaces r.col_offset
        let imported_lines := splitLines r.imported_code
        if !imported_lines.isEmpty then
          acc ++ imported_lines.map (fun l => indent ++ l)
        else acc
      else acc
    spliceLoop lines rs r.lineno acc

/-- `PythonBundler.find_module` (lines 140-152): probe each include path in
order, first for a file `<root>/<parts>.py`, then for a package directory
`<root>/<parts>` containing `__init__.py`; `None` when nothing matches. -/
def find_module (fs : FS) (module : String) : List Path → Option Path
  | [] => none
  | path :: rest =>
    let full_path := path ++ withSuffixPy (pySplitDots module)
    if fs.existsAny full_path then some full_path
    else
      let dir_path := path ++ pySplitDots module
      if fs.isDir dir_path && fs.existsAny (dir_path ++ ["__init__.py"]) then
        some dir_path
      else find_module fs module rest

/-- The path built by `visit_ImportFrom` for a relative import (lines
64-69): `list(file_path.parent.parts)[:-node.level]` extended with
`(node.module or '').split('.')`. -/
def relParts (file_path : Path) (level : Nat) (module : Option String) : Path :=
  let parts := file_path.dropLast
  parts.take (parts.length - level) ++ pySplitDots (module.getD "")

/-! ### The recursive bundler interpreter

Each function mirrors one method of `PythonBundler` / `ImportProcessor`;
the two Python `for` loops over alias names and over `iterdir` entries
become the list-recursive functions `importAliases`, `pkgNamesLoop` and
`pkgIterLoop`.  Every function consumes one unit of fuel per call. -/

mutual

/-- `PythonBundler.process_file` (lines 17-24). -/
def process_file (fs : FS) (roots : List Path) :
    Nat → BState → Path → Except BundleError BState
  | 0, _, _ => .error .fuelOut
  | fuel + 1, st, file_path =>
    if file_path ∈ st.processed_files then .ok st
    else
      let st := { st with processed_files := sAdd st.processed_files file_path }
      match fs.readFile file_path with
      | none => .error .fileNotFound
      | some (lines, stmts) =>
        match process_imports fs roots fuel st file_path lines stmts with
        | .error e => .error e
        | .ok (st, text) =>
          .ok { st with bundled_code := dictInsert st.bundled_code file_path text }

termination_by structural fuel _ _ => fuel

/-- `PythonBundler.import_file` (lines 26-33).  Note the source slip this
makes visible: after an early-returning `process_file` (file already in
`processed_files` but with its text still being computed further up the
call stack), `self.bundled_code[file_path]` raises `KeyError`. -/
def import_file (fs : FS) (roots : List Path) :
    Nat → BState → Path → Bool → Except BundleError (BState × String)
  | 0, _, _, _ => .error .fuelOut
  | fuel + 1, st, file_path, is_top_level =>
    let is_duplicate := file_path ∈ st.top_level_imports_paths
    if !is_duplicate then
      let st :=
        if is_top_level then
          { st with top_level_imports_paths := sAdd st.top_level_imports_paths file_path }
        else st
      match process_file fs roots fuel st file_path with
      | .error e => .error e
      | .ok st =>
        match st.bundled_code.lookup file_path with
        | some s => .ok (st, s)
        | none => .error .keyError
    else .ok (st, "")

termination_by structural fuel _ _ _ => fuel

/-- `PythonBundler.process_imports` (lines 36-138): run the visitor over
the parsed import nodes, sort the collected records by position, splice. -/
def process_imports (fs : FS) (roots : List Path) :
    Nat → BState → Path → List String → List Stmt →
    Except BundleError (BState × String)
  | 0, _, _, _, _ => .error .fuelOut
  | fuel + 1, st, file_path, lines, stmts =>
    match visitAll fs roots fuel st file_path stmts [] with
    | .error e => .error e
    | .ok (st, recs) =>
      let recs := sortRecords recs
      let final_code := spliceLoop lines recs 0 []
      .ok (st, pyJoin "\n" final_code ++ "\n")

termination_by structural fuel _ _ _ _ => fuel

/-- The visitor's traversal: `ImportProcessor.visit(tree)` reaching every
one of the import nodes (at any nesting depth) in order. -/
def visitAll (fs : FS) (roots : List Path) :
    Nat → BState → Path → List Stmt → List ImportRecord →
    Except BundleError (BState × List ImportRecord)
  | 0, _, _, _, _ => .error .fuelOut
  | _ + 1, st, _, [], acc => .ok (st, acc)
  | fuel + 1, st, file_path, s :: rest, acc =>
    let step :=
      match s with
      | .imp lineno col names =>
        visit_Import fs roots fuel st lineno col names acc
      | .impFrom lineno col level module names =>
        visit_ImportFrom fs roots fuel st file_path lineno col level module
          names acc
    match step with
    | .error e => .error e
    | .ok (st, acc) => visitAll fs roots fuel st file_path rest acc

termination_by structural fuel _ _ _ _ => fuel

/-- `ImportProcessor.visit_Import` (lines 42-61). -/
def visit_Import (fs : FS) (roots : List Path) :
    Nat → BState → Nat → Nat → List String → List ImportRecord →
    Except BundleError (BState × List ImportRecord)
  | 0, _, _, _, _, _ => .error .fuelOut
  | fuel + 1, st, lineno, col, names, acc =>
    match importAliases fs roots fuel st lineno col names acc true with
    | .error e => .error e
    | .ok (st, acc, good) =>
      if good then .ok (st, acc)
      else
        let is_top_level := col == 0
        let new_names := sOfList names
        let union := sUnion st.top_level_imports_modules new_names
        let before := st.top_level_imports_modules.length
        let after := union.length
        let acc :=
          if before == after then acc ++ [⟨lineno, col, [], "", true⟩] else acc
        let st :=
          if is_top_level then
            { st with top_level_imports_modules := sUnion st.top_level_imports_modules new_names }
          else st
        .ok (st, acc)

termination_by structural fuel _ _ _ _ _ => fuel

/-- The `for alias in node.names` loop of `visit_Import` (lines 45-50):
resolve each name, processing resolved ones and clearing `good` for
unresolved ones. -/
def importAliases (fs : FS) (roots : List Path) :
    Nat → BState → Nat → Nat → List String → List ImportRecord → Bool →
    Except BundleError (BState × List ImportRecord × Bool)
  | 0, _, _, _, _, _, _ => .error .fuelOut
  | _ + 1, st, _, _, [], acc, good => .ok (st, acc, good)
  | fuel + 1, st, lineno, col, name :: rest, acc, good =>
    match find_module fs name roots with
    | some module_path =>
      match process_module fs roots fuel st lineno col module_path false [] with
      | .error e => .error e
      | .ok (st, rec) =>
        importAliases fs roots fuel st lineno col rest (acc ++ [rec]) good
    | none => importAliases fs roots fuel st lineno col rest acc false

termination_by structural fuel _ _ _ _ _ _ => fuel

/-- `ImportProcessor.visit_ImportFrom` (lines 63-85).  For `level > 0` the
constructed `Path(*parts)` object is always truthy, so the line 84 check
`if module_path:` always passes and `process_module` is always reached;
for `level = 0` an absent `node.module` would crash `find_module` on
`None.split` (`attrError`; unreachable from real parses, where a missing
module forces `level > 0`). -/
def visit_ImportFrom (fs : FS) (roots : List Path) :
    Nat → BState → Path → Nat → Nat → Nat → Option String → List String →
    List ImportRecord → Except BundleError (BState × List ImportRecord)
  | 0, _, _, _, _, _, _, _, _ => .error .fuelOut
  | fuel + 1, st, file_path, lineno, col, level, module, names, acc =>
    if level > 0 then
      let module_path := relParts file_path level module
      match process_module fs roots fuel st lineno col module_path true names with
      | .error e => .error e
      | .ok (st, rec) => .ok (st, acc ++ [rec])
    else
      match module with
      | none => .error .attrError
      | some m =>
        match find_module fs m roots with
        | none =>
          let is_top_level := col == 0
          let new_names := sOfList names
          let prev := ddGet st.top_level_imports_from m
          let union := sUnion prev new_names
          let before := prev.length
          let after := union.length
          let acc :=
            if before == after then acc ++ [⟨lineno, col, [], "", true⟩]
            else acc
          let st :=
            if is_top_level then
              { st with top_level_imports_from := dictInsert st.top_level_imports_from m (sUnion prev new_names) }
            else st
          .ok (st, acc)
        | some module_path =>
          match process_module fs roots fuel st lineno col module_path true
              names with
          | .error e => .error e
          | .ok (st, rec) => .ok (st, acc ++ [rec])

termination_by structural fuel _ _ _ _ _ _ _ _ => fuel

/-- `ImportProcessor.process_module` (lines 89-104). -/
def process_module (fs : FS) (roots : List Path) :
    Nat → BState → Nat → Nat → Path → Bool → List String →
    Except BundleError (BState × ImportRecord)
  | 0, _, _, _, _, _, _ => .error .fuelOut
  | fuel + 1, st, lineno, col, module_path, from_import, import_names =>
    let is_duplicate := module_path ∈ st.top_level_imports_paths
    let is_top_level := col == 0
    let branch :=
      if !is_duplicate then
        if fs.isDir module_path then
          process_package fs roots fuel st module_path from_import import_names
            is_top_level
        else import_file fs roots fuel st module_path is_top_level
      else .ok (st, "")
    match branch with
    | .error e => .error e
    | .ok (st, imported_code) =>
      let st :=
        if is_top_level && !is_duplicate then
          { st with top_level_imports_paths := sAdd st.top_level_imports_paths module_path }
        else st
      .ok (st, ⟨lineno, col, module_path, imported_code, is_duplicate⟩)

termination_by structural fuel _ _ _ _ _ _ => fuel

/-- `PythonBundler.process_package` (lines 154-171). -/
def process_package (fs : FS) (roots : List Path) :
    Nat → BState → Path → Bool → List String → Bool →
    Except BundleError (BState × String)
  | 0, _, _, _, _, _ => .error .fuelOut
  | fuel + 1, st, package_path, from_import, import_names, is_top_level =>
    let branch :=
      if from_import && !(import_names.contains "*") then
        pkgNamesLoop fs roots fuel st import_names is_top_level []
      else
        pkgIterLoop fs roots fuel st package_path (fs.iterdir package_path)
          from_import import_names is_top_level []
    match branch with
    | .error e => .error e
    | .ok (st, package_code) =>
      .ok (st, pyJoin "\n" (package_code.filter (fun c => c ≠ "")))

termination_by structural fuel _ _ _ _ _ => fuel

/-- The selective-import loop of `process_package` (lines 159-162). -/
def pkgNamesLoop (fs : FS) (roots : List Path) :
    Nat → BState → List String → Bool → List String →
    Except BundleError (BState × List String)
  | 0, _, _, _, _ => .error .fuelOut
  | _ + 1, st, [], _, acc => .ok (st, acc)
  | fuel + 1, st, name :: rest, is_top_level, acc =>
    match find_module fs name roots with
    | some module_path =>
      match import_file fs roots fuel st module_path is_top_level with
      | .error e => .error e
      | .ok (st, code) =>
        pkgNamesLoop fs roots fuel st rest is_top_level (acc ++ [code])
    | none => pkgNamesLoop fs roots fuel st rest is_top_level acc

termination_by structural fuel _ _ _ _ => fuel

/-- The `iterdir` loop of `process_package` (lines 165-169). -/
def pkgIterLoop (fs : FS) (roots : List Path) :
    Nat → BState → Path → List (String × FSEntry) → Bool → List String →
    Bool → List String → Except BundleError (BState × List String)
  | 0, _, _, _, _, _, _, _ => .error .fuelOut
  | _ + 1, st, _, [], _, _, _, acc => .ok (st, acc)
  | fuel + 1, st, pkg, (name, entry) :: rest, from_import, import_names,
      is_top_level, acc =>
    match entry with
    | .file _ _ =>
      if nameSuffix name == ".py" && !(listIsPre "_".data name.data) then
        match import_file fs roots fuel st (pkg ++ [name]) is_top_level with
        | .error e => .error e
        | .ok (st, code) =>
          pkgIterLoop fs roots fuel st pkg rest from_import import_names
            is_top_level (acc ++ [code])
      else
        pkgIterLoop fs roots fuel st pkg rest from_import import_names
          is_top_level acc
    | .dir =>
      if fs.existsAny (pkg ++ [name, "__init__.py"]) then
        match process_package fs roots fuel st (pkg ++ [name]) from_import
            import_names is_top_level with
        | .error e => .error e
        | .ok (st, code) =>
          pkgIterLoop fs roots fuel st pkg rest from_import import_names
            is_top_level (acc ++ [code])
      else
        pkgIterLoop fs roots fuel st pkg rest from_import import_names
          is_top_level acc

termination_by structural fuel _ _ _ _ _ _ _ => fuel
end

/-- `PythonBundler.update` (lines 182-184), the single entry point: process
the entry file, then return its bundled text (`.encode()` to bytes is left
as the identity on the text). -/
def update (fs : FS) (roots : List Path) (fuel : Nat) (path : Path) :
    Except BundleError String :=
  match process_file fs roots fuel initState path with
  | .error e => .error e
  | .ok st =>
    match st.bundled_code.lookup path with
    | some s => .ok s
    | none => .error .keyError

/-- `PythonLanguage.bundle` (python.py lines 98-101): a fresh
`PythonBundler` over `[basedir] + include_paths`, then `update`. -/
def bundle (fs : FS) (basedir : Path) (include_paths : List Path)
    (fuel : Nat) (path : Path) : Except BundleError String :=
  update fs (basedir :: include_paths) fuel path

/-! ### The dependency-listing service and classification predicates
(python.py) -/

/-- `is_builtin_module` (python.py lines 90-92): true when the name is in
`sys.builtin_module_names` or in `sys.modules`.  Both interpreter-state
collections are passed explicitly as the name lists `builtin_module_names`
and `sys_modules`. -/
def is_builtin_module (builtin_module_names sys_modules : List String)
    (module_name : String) : Bool :=
  builtin_module_names.contains module_name || sys_modules.contains module_name

/-- Python `path.name`: the final path component. -/
def pathName (p : Path) : String := p.getLastD ""

/-- The dependency filter of `_python_list_depending_files` (lines 80-86):
keep a reported dependency when its stem is not a builtin/loaded module
name, it lies strictly under `basedir`, and it is not an `__init__.py`.
`basedir.resolve() in dep.resolve().parents` means: `basedir` is a proper
ancestor of `dep`, i.e. a strict component-list prefix. -/
def depKept (builtin_module_names sys_modules : List String) (basedir : Path)
    (dep : Path) : Bool :=
  !is_builtin_module builtin_module_names sys_modules (nameStem (pathName dep))
    && (basedir.isPrefixOf dep && basedir.length < dep.length
        && pathName dep != "__init__.py")

/-- The collection loop of `_python_list_depending_files` (lines 80-86)
over the graph's `deps_list()` pairs. -/
def collectDeps (builtin_module_names sys_modules : List String)
    (basedir : Path) : List (String × List Path) → List Path
  | [] => []
  | (_, deps) :: rest =>
    deps.filter (depKept builtin_module_names sys_modules basedir)
      ++ collectDeps builtin_module_names sys_modules basedir rest

/-- `_python_list_depending_files` (lines 77-88) after a successful graph
construction: `res_deps` starts with the resolved entry path, the loop adds
the kept dependencies, and `list(set(res_deps))` deduplicates (Python's set
order is unspecified; this model keeps first occurrences, and claims about
the result are membership claims). -/
def python_list_depending_files (builtin_module_names sys_modules : List String)
    (path basedir : Path) (node_deps_pairs : List (String × List Path)) :
    List Path :=
  sOfList (path :: collectDeps builtin_module_names sys_modules basedir
    node_deps_pairs)

/-- The timeout-failure message of python.py line 68, naming the entry file. -/
def timeoutMessage (path : Path) : String :=
  "Failed to analyze the dependency graph (timeout): " ++ pathToString path

/-- The circular-import failure message of python.py line 72. -/
def circularMessage (path : Path) : String :=
  "Failed to analyze the dependency graph (circular imports?): " ++
    pathToString path

/-- `_python_list_depending_files` (lines 53-88) end to end.  The
concurrent-futures worker is abstracted by `graph_done_at`: the wall-clock
seconds at which `ImportGraph.create` would complete (`none` when it never
does); `future.result(timeout)` raises `TimeoutError` exactly when that
time exceeds the platform-dependent timeout of lines 62-65 (5.0 seconds
when `platform.uname().system == 'Windows'`, 1.0 otherwise).
`deps_list_result` abstracts `res_graph.deps_list()`, whose failure is the
circular-import case.  A raised `RuntimeError` is the `.error` branch with
its message; `functools.lru_cache` never caches a raising call, so a
timed-out entry is not cached either. -/
def list_depending_files_run (system : String) (path basedir : Path)
    (graph_done_at : Option ℚ)
    (deps_list_result : Except Unit (List (String × List Path)))
    (builtin_module_names sys_modules : List String) :
    Except String (List Path) :=
  let timeout : ℚ := if system = "Windows" then 5 else 1
  let timed_out :=
    match graph_done_at with
    | none => true
    | some t => decide (timeout < t)
  if timed_out then .error (timeoutMessage path)
  else
    match deps_list_result with
    | .error _ => .error (circularMessage path)
    | .ok node_deps_pairs =>
      .ok (python_list_depending_files builtin_module_names sys_modules path
        basedir node_deps_pairs)

/-- `PythonLanguage.is_verification_file` (python.py lines 103-104):
`'.test.py' in path.name`. -/
def is_verification_file (path : Path) : Bool := strIn ".test.py" (pathName path)

/-- `PythonLanguage.is_library_file` (python.py lines 106-107):
`path.name and path.name[0] != '_' and '.test.py' not in path.name and
'.py' in path.name` (the final conjunct is a substring test on the
filename, not an extension test). -/
def is_library_file (path : Path) : Bool :=
  match (pathName path).data with
  | [] => false
  | c :: _ =>
    c != '_' && !strIn ".test.py" (pathName path) && strIn ".py" (pathName path)

/-- The claim's reading of `isLibraryFile`, for refinement comparison
("has the subject language's file extension, i.e. the extension itself is
the language's extension"): same private-marker and verification-file
tests, but the `pathlib` suffix must equal `".py"`. -/
def is_library_file_claimed (path : Path) : Bool :=
  match (pathName path).data with
  | [] => false
  | c :: _ =>
    c != '_' && !strIn ".test.py" (pathName path)
      && nameSuffix (pathName path) == ".py"

/-! ### Supporting lemmas -/

/-- What a bundled text looks like after `splitlines`: a nonempty line list
is recovered as is, while the empty list (an empty source file, whose
bundled text is just a newline) reads back as one empty line. -/
def reSplit (ls : List String) : List String := if ls.isEmpty then [""] else ls

theorem reSplit_ne_nil (ls : List String) : reSplit ls ≠ [] := by
  unfold reSplit
  cases ls <;> simp

theorem reSplit_isEmpty (ls : List String) : (reSplit ls).isEmpty = false := by
  unfold reSplit
  cases ls <;> rfl

theorem data_append (a b : String) : (a ++ b).data = a.data ++ b.data := rfl

theorem empty_append (s : String) : "" ++ s = s := by
  cases s
  show String.mk ([] ++ _) = _
  rw [List.nil_append]

/-- A bundled text (joined lines plus trailing newline) is never the empty
string, so `process_package`'s truthiness filter keeps it. -/
theorem pyJoin_newline_ne_empty (ls : List String) :
    pyJoin "\n" ls ++ "\n" ≠ "" := by
  intro hcontra
  have hd := congrArg String.data hcontra
  rw [data_append] at hd
  simp at hd

theorem splitLinesAux_newline_free (cs : List Char) (h : ('\n' : Char) ∉ cs)
    (rest acc : List Char) :
    splitLinesAux (cs ++ '\n' :: rest) acc =
      String.mk (acc.reverse ++ cs) :: splitLinesAux rest [] := by
  induction cs generalizing acc with
  | nil => simp [splitLinesAux]
  | cons c cs ih =>
    simp only [List.mem_cons, not_or] at h
    have hc : ¬(c = '\n') := fun hch => h.1 hch.symm
    rw [List.cons_append]
    simp only [splitLinesAux, if_neg hc, List.append_eq]
    rw [ih h.2]
    simp

/-- The splitlines/join round trip used by the splice step: splitting a
bundled text (the newline-joined lines plus a trailing newline) recovers
the lines, via `reSplit`. -/
theorem splitLines_pyJoin (ls : List String)
    (h : ∀ l ∈ ls, ('\n' : Char) ∉ l.data) :
    splitLines (pyJoin "\n" ls ++ "\n") = reSplit ls := by
  induction ls with
  | nil => rfl
  | cons s ls ih =>
    cases ls with
    | nil =>
      have hs : ('\n' : Char) ∉ s.data := h s (by simp)
      show splitLinesAux ((pyJoin "\n" [s] ++ "\n")).data [] = reSplit [s]
      have hd : (pyJoin "\n" [s] ++ "\n").data = s.data ++ '\n' :: [] := rfl
      rw [hd, splitLinesAux_newline_free s.data hs]
      simp [splitLinesAux, reSplit]
    | cons s2 ls2 =>
      have hs : ('\n' : Char) ∉ s.data := h s (by simp)
      have hrest : ∀ l ∈ s2 :: ls2, ('\n' : Char) ∉ l.data := by
        intro l hl
        exact h l (List.mem_cons_of_mem s hl)
      show splitLinesAux ((pyJoin "\n" (s :: s2 :: ls2) ++ "\n")).data [] =
        reSplit (s :: s2 :: ls2)
      have hd : (pyJoin "\n" (s :: s2 :: ls2) ++ "\n").data =
          s.data ++ '\n' :: (pyJoin "\n" (s2 :: ls2) ++ "\n").data := by
        show ((s ++ "\n" ++ pyJoin "\n" (s2 :: ls2)) ++ "\n").data = _
        simp [data_append, List.append_assoc]
      rw [hd, splitLinesAux_newline_free s.data hs]
      have := ih hrest
      unfold splitLines at this
      rw [this]
      simp [reSplit]

theorem mem_sAdd {α : Type} [DecidableEq α] (s : List α) (x y : α) :
    y ∈ sAdd s x ↔ y ∈ s ∨ y = x := by
  unfold sAdd
  by_cases hx : x ∈ s
  · simp only [if_pos hx]
    constructor
    · exact fun h => Or.inl h
    · rintro (h | rfl)
      · exact h
      · exact hx
  · simp [if_neg hx]

theorem mem_sUnion {α : Type} [DecidableEq α] (l : List α) (s : List α) (y : α) :
    y ∈ sUnion s l ↔ y ∈ s ∨ y ∈ l := by
  induction l generalizing s with
  | nil => simp [sUnion]
  | cons x xs ih =>
    show y ∈ sUnion (sAdd s x) xs ↔ _
    rw [ih, mem_sAdd]
    simp only [List.mem_cons]
    tauto

theorem mem_sOfList {α : Type} [DecidableEq α] (l : List α) (y : α) :
    y ∈ sOfList l ↔ y ∈ l := by
  unfold sOfList
  rw [mem_sUnion]
  simp

theorem mem_collectDeps (builtins sysm : List String) (basedir : Path)
    (pairs : List (String × List Path)) (dep : Path)
    (h : dep ∈ collectDeps builtins sysm basedir pairs) :
    depKept builtins sysm basedir dep = true := by
  induction pairs with
  | nil => simp [collectDeps] at h
  | cons pr rest ih =>
    unfold collectDeps at h
    rw [List.mem_append] at h
    rcases h with h | h
    · exact (List.mem_filter.mp h).2
    · exact ih h

theorem listIsPre_iff (sub l : List Char) :
    listIsPre sub l = true ↔ ∃ t, l = sub ++ t := by
  induction sub generalizing l with
  | nil => simp [listIsPre]
  | cons a as ih =>
    cases l with
    | nil => simp [listIsPre]
    | cons b bs =>
      simp only [listIsPre, Bool.and_eq_true, beq_iff_eq, ih, List.cons_append,
        List.cons.injEq]
      constructor
      · rintro ⟨rfl, t, rfl⟩
        exact ⟨t, rfl, rfl⟩
      · rintro ⟨t, rfl, rfl⟩
        exact ⟨rfl, t, rfl⟩

theorem hasSubBlock_iff (sub l : List Char) :
    hasSubBlock sub l = true ↔ ∃ p t, l = p ++ sub ++ t := by
  induction l with
  | nil =>
    simp only [hasSubBlock, List.isEmpty_iff]
    constructor
    · rintro rfl
      exact ⟨[], [], rfl⟩
    · rintro ⟨p, t, ht⟩
      rcases List.append_eq_nil.mp (List.append_eq_nil.mp ht.symm).1 with ⟨-, h2⟩
      exact h2
  | cons c rest ih =>
    simp only [hasSubBlock, Bool.or_eq_true, listIsPre_iff, ih]
    constructor
    · rintro (⟨t, ht⟩ | ⟨p, t, ht⟩)
      · exact ⟨[], t, by simp [ht]⟩
      · exact ⟨c :: p, t, by simp [ht]⟩
    · rintro ⟨p, t, ht⟩
      cases p with
      | nil => exact Or.inl ⟨t, by simpa using ht⟩
      | cons c2 p2 =>
        rw [List.cons_append, List.cons_append, List.cons.injEq] at ht
        exact Or.inr ⟨p2, t, ht.2⟩

/-! ### Scenario filesystems

Each scenario gives the include root `r` and concrete file paths with
concrete import statements; where a claim quantifies over file contents,
the bodies and trailing lines are parameters. -/

/-- Two mutually importing local files, entry `r/x.py`:
`x.py` reads `import y` / `a = 1`, `y.py` reads `import x` / `b = 2`. -/
def fsCycle : FS := ⟨[
  (["r", "x.py"], .file ["import y", "a = 1"] [.imp 1 0 ["y"]]),
  (["r", "y.py"], .file ["import x", "b = 2"] [.imp 1 0 ["x"]])]⟩

/-- Entry `r/pkg/x.py` with the relative import `from .m import f`
(level 1) on line 1 and arbitrary further lines `rest`; the path
arithmetic of `visit_ImportFrom` resolves the reference to `r/m`, which
exists (an extensionless file) with body `mLines`. -/
def fsRel (mLines rest : List String) : FS := ⟨[
  (["r", "pkg", "x.py"],
    .file ("from .m import f" :: rest) [.impFrom 1 0 1 (some "m") ["f"]]),
  (["r", "m"], .file mLines [])]⟩

/-- Entry `r/main.py` with `import p` on line 1 and arbitrary further
lines `rest`, where `r/p` is a package directory containing `__init__.py`
and one public module `a.py` with body `aLines`. -/
def fsPkg (aLines rest : List String) : FS := ⟨[
  (["r", "main.py"], .file ("import p" :: rest) [.imp 1 0 ["p"]]),
  (["r", "p"], .dir),
  (["r", "p", "__init__.py"], .file [] []),
  (["r", "p", "a.py"], .file aLines [])]⟩

/-- Entry `r/main.py` importing local `r/a.py` at column 0 on line 1, then
again from a nested (column 4) position on line 3. -/
def fsNested : FS := ⟨[
  (["r", "main.py"],
    .file ["import a", "if True:", "    import a", "print(a.f)"]
      [.imp 1 0 ["a"], .imp 3 4 ["a"]]),
  (["r", "a.py"], .file ["f = 1"] [])]⟩

/-- Entry `r/main.py` whose only import of local `r/a.py` (body `aLines`)
at lines 1-2 is nested (line 2, column 4), followed by a later top-level
occurrence of the same module (line 4, column 0) and arbitrary further lines
`rest`.  Exercises the populate side of the column discipline: if the
nested occurrence marked the path globally, the later top-level
occurrence would be elided as a duplicate. -/
def fsNestedThenTop (aLines rest : List String) : FS := ⟨[
  (["r", "main.py"],
    .file ("if True:" :: "    import a" :: "x = 0" :: "import a" :: rest)
      [.imp 2 4 ["a"], .imp 4 0 ["a"]]),
  (["r", "a.py"], .file aLines [])]⟩

/-- Entry `r/main.py` whose line 1 (text `l1`) carries `import a, b` and
whose line 2 (text `l2`) carries a bare `import a`, both at column 0, with
arbitrary further lines `rest`; neither `a` nor `b` resolves (no other
file exists). -/
def fsContain (l1 l2 : String) (rest : List String) : FS := ⟨[
  (["r", "main.py"],
    .file (l1 :: l2 :: rest) [.imp 1 0 ["a", "b"], .imp 2 0 ["a"]])]⟩

/-- Entry `r/main.py` importing the local module `a` at top level twice
(lines 1 and 2, both column 0), with arbitrary further lines `rest`;
`r/a.py` has body `aLines` and no imports of its own. -/
def fsDedup (aLines rest : List String) : FS := ⟨[
  (["r", "main.py"],
    .file ("import a" :: "import a" :: rest) [.imp 1 0 ["a"], .imp 2 0 ["a"]]),
  (["r", "a.py"], .file aLines [])]⟩

/-- Entry `r/main.py` whose single line-1 statement `import loc, ext`
names both the local module `r/loc.py` (body `locLines`) and an
unresolved external `ext`, with arbitrary further lines `rest`. -/
def fsMixed (locLines rest : List String) : FS := ⟨[
  (["r", "main.py"], .file ("import loc, ext" :: rest) [.imp 1 0 ["loc", "ext"]]),
  (["r", "loc.py"], .file locLines [])]⟩

/-! ### Claim C1 -/

/-- Claim C1 (code bug evidence): on the two-file import cycle
`x.py ⇄ y.py`, `bundle(x)` does not terminate with a finite output in
which the second visit of `x` contributes an empty inline; instead the
run raises an uncaught `KeyError`.  When the recursion re-enters the
in-progress entry file, `process_file` returns early (the cycle guard),
but `import_file` then reads `self.bundled_code[x]`, which has not been
assigned yet — `x`'s processed text is only stored after `process_imports`
returns, further up the stack.  (Fuel 40 far exceeds the recursion depth;
the result is a genuine `KeyError`, not fuel exhaustion.) -/
theorem c1_cycle_bundle_raises_keyError :
    update fsCycle [["r"]] 40 ["r", "x.py"] = .error .keyError := rfl

/-! ### Claim C5 -/

/-- Claim C5 (containment law for unresolved externals): in a file whose
line 1 is `import a, b` and whose line 2 is a bare `import a`, both at top
level and both unresolved, the bundle output keeps line 1 verbatim (`l1`)
and elides line 2: the output is exactly line 1 followed by the remaining
lines.  Internally the first statement adds `{a, b}` to
`top_level_imports_modules` and is left in place (no record is emitted for
it), while the second statement's names are already contained (the union
`{a, b} ∪ {a}` does not grow), so a skip record is emitted and its line is
removed. -/
theorem c5_containment_law (l1 l2 : String) (rest : List String) :
    update (fsContain l1 l2 rest) [["r"]] 40 ["r", "main.py"] =
      .ok (pyJoin "\n" (l1 :: rest) ++ "\n") := rfl

/-! ### Claim C6 -/

/-- Claim C6 (dedup law): in `main` importing the local module `a` at top
level twice (identically, lines 1 and 2), the bundle output consists of
`a`'s inlined body exactly once, followed by the remaining lines of
`main`: the first occurrence is replaced by the body, the second
occurrence contributes nothing and its import line is removed.  The body
is arbitrary (`aLines`, newline-free per the splitlines convention), as
are the trailing lines. -/
theorem c6_dedup_law (aLines rest : List String)
    (h : ∀ l ∈ aLines, ('\n' : Char) ∉ l.data) :
    update (fsDedup aLines rest) [["r"]] 40 ["r", "main.py"] =
      .ok (pyJoin "\n" (reSplit aLines ++ rest) ++ "\n") := by
  have hA : splitLines (pyJoin "\n" aLines ++ "\n") = reSplit aLines :=
    splitLines_pyJoin aLines h
  trans (.ok (pyJoin "\n"
    (((if !(splitLines (pyJoin "\n" aLines ++ "\n")).isEmpty then
        (splitLines (pyJoin "\n" aLines ++ "\n")).map (fun l => "" ++ l)
      else []) ++ []) ++ rest) ++ "\n"))
  · rfl
  rw [hA]
  simp [reSplit_isEmpty, empty_append]

/-- Witness for C6 at a concrete body: `a.py` is `f = 1`, the trailing
line is `print(a.f)`. -/
theorem c6_dedup_law_witness :
    update (fsDedup ["f = 1"] ["print(a.f)"]) [["r"]] 40 ["r", "main.py"] =
      .ok "f = 1\nprint(a.f)\n" :=
  c6_dedup_law ["f = 1"] ["print(a.f)"] (by decide)

/-! ### Claim C4 -/

/-- The alias loop of `visit_Import` on a statement none of whose names
resolves: it performs no processing, leaves state and records untouched,
and reports `good` only when there was no alias at all. -/
theorem importAliases_unresolved (fs : FS) (roots : List Path) (st : BState)
    (lineno col : Nat) (names : List String) (acc : List ImportRecord)
    (good : Bool) (fuel : Nat) (hf : names.length < fuel)
    (h : ∀ n ∈ names, find_module fs n roots = none) :
    importAliases fs roots fuel st lineno col names acc good =
      .ok (st, acc, good && names.isEmpty) := by
  induction names generalizing acc good fuel with
  | nil =>
    cases fuel with
    | zero => omega
    | succ f => simp [importAliases]
  | cons n ns ih =>
    cases fuel with
    | zero => omega
    | succ f =>
      have hn : find_module fs n roots = none := h n (by simp)
      rw [importAliases, hn]
      rw [ih acc false f (by simpa using Nat.lt_of_succ_lt_succ hf)
        (fun m hm => h m (List.mem_cons_of_mem n hm))]
      simp

/-- A session state in which `r/a.py` has already been inlined at top
level. -/
def stMarked : BState := { initState with top_level_imports_paths := [["r", "a.py"]] }

/-- As `stMarked`, with the unresolved name `ext` also recorded in
`top_level_imports_modules`. -/
def stMarkedExt : BState := { initState with top_level_imports_paths := [["r", "a.py"]], top_level_imports_modules := ["ext"] }

/-- Claim C4 counterexample: a nested (column 4) occurrence of a local
module is elided on the basis of the session dedup set.  End to end: in
`fsNested`, the line-3 nested `    import a` vanishes from the output with
nothing inlined in its place (its record is a duplicate), because line 1's
top-level import put `r/a.py` into `top_level_imports_paths`.  At the
record level: with `r/a.py` in the set, `process_module` at column 4 emits
the duplicate record with empty contribution and no state change. -/
theorem c4_nested_elision_counterexample :
    update fsNested [["r"]] 40 ["r", "main.py"] =
      .ok "f = 1\nif True:\nprint(a.f)\n" ∧
    process_module fsNested [["r"]] 10 stMarked 3 4 ["r", "a.py"] false [] =
      .ok (stMarked, ⟨3, 4, ["r", "a.py"], "", true⟩) := ⟨rfl, rfl⟩

/-- Claim C4 amended: only column-0 occurrences populate the dedup sets,
but occurrences at any column are satisfied by them.  (a) An import of a
local path already in `top_level_imports_paths` is elided — empty
contribution, duplicate record, state unchanged — regardless of its
column.  (b) A statement all of whose names are unresolved and already
covered by `top_level_imports_modules` gets a skip record regardless of
its column, and at a nonzero column it leaves the state untouched (no
population).  (c) A nested (nonzero-column) occurrence of a local module
file not yet in `top_level_imports_paths` delegates to `import_file` with
`is_top_level = false` and produces a non-duplicate (inlined) record,
performing no set insertion of its own — the right-hand side contains no
addition to the set.  (d) `import_file` at `is_top_level = false` on an
unmarked path passes the session state through to `process_file`
unchanged, so the occurrence itself never marks the path.  (e) End to
end: when the only prior import of `r/a.py` is nested (column 4), the
body is inlined locally at that indentation, and a later top-level
occurrence of the same module is *not* considered a duplicate of it —
its body is inlined again. -/
theorem c4_dedup_sets_column_discipline (fs : FS) (roots : List Path)
    (fuel : Nat) (st : BState) (lineno col : Nat) (mp : Path) (fi : Bool)
    (ns names : List String) (acc : List ImportRecord)
    (aLines rest : List String) :
    (mp ∈ st.top_level_imports_paths →
      process_module fs roots (fuel + 1) st lineno col mp fi ns =
        .ok (st, ⟨lineno, col, mp, "", true⟩))
    ∧ (col ≠ 0 → names ≠ [] → names.length < fuel →
        (∀ n ∈ names, find_module fs n roots = none) →
        (sUnion st.top_level_imports_modules (sOfList names)).length =
          st.top_level_imports_modules.length →
        visit_Import fs roots (fuel + 1) st lineno col names acc =
          .ok (st, acc ++ [⟨lineno, col, [], "", true⟩]))
    ∧ (col ≠ 0 → mp ∉ st.top_level_imports_paths → fs.isDir mp = false →
        process_module fs roots (fuel + 1) st lineno col mp fi ns =
          match import_file fs roots fuel st mp false with
          | .error e => .error e
          | .ok (st2, code) => .ok (st2, ⟨lineno, col, mp, code, false⟩))
    ∧ (mp ∉ st.top_level_imports_paths →
        import_file fs roots (fuel + 1) st mp false =
          match process_file fs roots fuel st mp with
          | .error e => .error e
          | .ok st2 =>
            match st2.bundled_code.lookup mp with
            | some s => .ok (st2, s)
            | none => .error .keyError)
    ∧ ((∀ l ∈ aLines, ('\n' : Char) ∉ l.data) →
        update (fsNestedThenTop aLines rest) [["r"]] 40 ["r", "main.py"] =
          .ok (pyJoin "\n" ("if True:" ::
            ((reSplit aLines).map (fun l => "    " ++ l) ++
              "x = 0" :: (reSplit aLines ++ rest))) ++ "\n")) := by
  refine ⟨?_, ?_, ?_, ?_, ?_⟩
  · intro hmem
    rw [process_module]
    simp [hmem]
  · intro hcol hne hfuel hunres hlen
    rw [visit_Import,
      importAliases_unresolved fs roots st lineno col names acc true fuel hfuel
        hunres]
    have hgood : (true && names.isEmpty) = false := by
      cases names with
      | nil => exact absurd rfl hne
      | cons a as => rfl
    rw [hgood]
    have hcolb : (col == 0) = false := by
      simpa using hcol
    simp [hlen, hcolb]
  · intro hcol hmem hdir
    have hcolb : (col == 0) = false := by
      simpa using hcol
    rw [process_module]
    simp [hmem, hdir, hcolb]
  · intro hmem
    rw [import_file]
    simp [hmem]
  · intro h
    have hA : splitLines (pyJoin "\n" aLines ++ "\n") = reSplit aLines :=
      splitLines_pyJoin aLines h
    trans (Except.ok (pyJoin "\n"
      ((if !(splitLines (pyJoin "\n" aLines ++ "\n")).isEmpty then
          ((if !(splitLines (pyJoin "\n" aLines ++ "\n")).isEmpty then
              ["if True:"] ++ (splitLines (pyJoin "\n" aLines ++ "\n")).map
                (fun l => "    " ++ l)
            else ["if True:"]) ++ ["x = 0"]) ++
            (splitLines (pyJoin "\n" aLines ++ "\n")).map (fun l => "" ++ l)
        else
          (if !(splitLines (pyJoin "\n" aLines ++ "\n")).isEmpty then
              ["if True:"] ++ (splitLines (pyJoin "\n" aLines ++ "\n")).map
                (fun l => "    " ++ l)
            else ["if True:"]) ++ ["x = 0"]) ++ rest) ++ "\n"))
    · rfl
    rw [hA]
    simp [reSplit_isEmpty, empty_append]

/-- Witness for the amended C4, all five conjuncts at concrete inputs: a
column-4 occurrence of an already-marked local path is elided with no
state change; a column-4 unresolved `import ext` whose name is already in
the modules set gets a skip record with no state change; a column-4
occurrence of the unmarked `r/a.py` delegates to `import_file` with
`is_top_level = false` as a non-duplicate record; `import_file` at
`is_top_level = false` threads the state through unchanged; and the
nested-then-top-level scenario inlines the body at column 4 and again at
the later top-level occurrence. -/
theorem c4_dedup_sets_column_discipline_witness :
    (process_module fsNested [["r"]] 6 stMarkedExt 3 4 ["r", "a.py"] false [] =
      .ok (stMarkedExt, ⟨3, 4, ["r", "a.py"], "", true⟩))
    ∧ (visit_Import fsNested [["r"]] 6 stMarkedExt 3 4 ["ext"] [] =
      .ok (stMarkedExt, [⟨3, 4, [], "", true⟩]))
    ∧ (process_module fsNested [["r"]] 6 initState 3 4 ["r", "a.py"] false [] =
      match import_file fsNested [["r"]] 5 initState ["r", "a.py"] false with
      | .error e => .error e
      | .ok (st2, code) => .ok (st2, ⟨3, 4, ["r", "a.py"], code, false⟩))
    ∧ (import_file fsNested [["r"]] 6 initState ["r", "a.py"] false =
      match process_file fsNested [["r"]] 5 initState ["r", "a.py"] with
      | .error e => .error e
      | .ok st2 =>
        match st2.bundled_code.lookup ["r", "a.py"] with
        | some s => .ok (st2, s)
        | none => .error .keyError)
    ∧ (update (fsNestedThenTop ["f = 1"] ["print(a.f)"]) [["r"]] 40
        ["r", "main.py"] =
      .ok (pyJoin "\n" ("if True:" ::
        ((reSplit ["f = 1"]).map (fun l => "    " ++ l) ++
          "x = 0" :: (reSplit ["f = 1"] ++ ["print(a.f)"]))) ++ "\n")) := by
  refine ⟨?_, ?_, ?_, ?_, ?_⟩
  · exact (c4_dedup_sets_column_discipline fsNested [["r"]] 5 stMarkedExt 3 4
      ["r", "a.py"] false [] ["ext"] [] [] []).1 (by decide)
  · exact (c4_dedup_sets_column_discipline fsNested [["r"]] 5 stMarkedExt 3 4
      ["r", "a.py"] false [] ["ext"] [] [] []).2.1 (by decide) (by decide)
      (by decide) (by decide) (by decide)
  · exact (c4_dedup_sets_column_discipline fsNested [["r"]] 5 initState 3 4
      ["r", "a.py"] false [] ["ext"] [] [] []).2.2.1 (by decide) (by decide)
      (by decide)
  · exact (c4_dedup_sets_column_discipline fsNested [["r"]] 5 initState 3 4
      ["r", "a.py"] false [] ["ext"] [] [] []).2.2.2.1 (by decide)
  · exact (c4_dedup_sets_column_discipline fsNested [["r"]] 39 initState 3 4
      ["r", "a.py"] false [] ["ext"] [] ["f = 1"]
      ["print(a.f)"]).2.2.2.2 (by decide)

/-! ### Claim C7 -/

/-- Claim C7: for an `import loc, ext` statement naming a locally-resolved
module and an unresolved external one, the bundler splices `loc`'s
processed body in place of the statement and removes the whole original
statement line, silently dropping the `ext` specifier: the output is exactly
`loc`'s body followed by the remaining lines, with no `import` line kept.
(`visit_Import` records the resolved alias, so the splice replaces the
line; the unresolved alias only clears `good`, and since the union check
grows the dedup set, no verbatim-keeping path is taken.) -/
theorem c7_mixed_import_drops_external (locLines rest : List String)
    (h : ∀ l ∈ locLines, ('\n' : Char) ∉ l.data) :
    update (fsMixed locLines rest) [["r"]] 40 ["r", "main.py"] =
      .ok (pyJoin "\n" (reSplit locLines ++ rest) ++ "\n") := by
  have hA : splitLines (pyJoin "\n" locLines ++ "\n") = reSplit locLines :=
    splitLines_pyJoin locLines h
  trans (.ok (pyJoin "\n"
    ((if !(splitLines (pyJoin "\n" locLines ++ "\n")).isEmpty then
        (splitLines (pyJoin "\n" locLines ++ "\n")).map (fun l => "" ++ l)
      else []) ++ rest) ++ "\n"))
  · rfl
  rw [hA]
  simp [reSplit_isEmpty, empty_append]

/-- Witness for C7 at a concrete body: `loc.py` is `x = 3`, the trailing
line is `print(loc.x)`. -/
theorem c7_mixed_import_drops_external_witness :
    update (fsMixed ["x = 3"] ["print(loc.x)"]) [["r"]] 40 ["r", "main.py"] =
      .ok "x = 3\nprint(loc.x)\n" :=
  c7_mixed_import_drops_external ["x = 3"] ["print(loc.x)"] (by decide)

/-! ### Claim C2 -/

/-- Claim C2 counterexample: an entry file whose transitive closure
contains a relative import (a from-import with level 1) on which `bundle`
does not fail at all — it resolves the reference by path arithmetic and
produces output.  No `UnsupportedRelativeImport` failure exists in the
code: `visit_ImportFrom` handles `node.level > 0` by building a path from
the importing file's directory and processing it. -/
theorem c2_relative_import_counterexample :
    update (fsRel ["f = 1"] ["print(f)"]) [["r"]] 40 ["r", "pkg", "x.py"] =
      .ok "f = 1\nprint(f)\n" := rfl

/-- Claim C2 amended: a from-import with nonzero level is not rejected;
`visit_ImportFrom` resolves it itself — dropping `level` trailing
components from the importing file's directory path and appending the
module's dot-separated parts (`relParts`) — and processes the resolved
path like any local module, splicing its bundled body into the output.
Here `from .m import f` in `r/pkg/x.py` resolves to `r/m`, whose arbitrary
body replaces the import line. -/
theorem c2_relative_import_resolved_and_inlined (mLines rest : List String)
    (h : ∀ l ∈ mLines, ('\n' : Char) ∉ l.data) :
    relParts ["r", "pkg", "x.py"] 1 (some "m") = ["r", "m"] ∧
    update (fsRel mLines rest) [["r"]] 40 ["r", "pkg", "x.py"] =
      .ok (pyJoin "\n" (reSplit mLines ++ rest) ++ "\n") := by
  refine ⟨rfl, ?_⟩
  have hA : splitLines (pyJoin "\n" mLines ++ "\n") = reSplit mLines :=
    splitLines_pyJoin mLines h
  trans (.ok (pyJoin "\n"
    ((if !(splitLines (pyJoin "\n" mLines ++ "\n")).isEmpty then
        (splitLines (pyJoin "\n" mLines ++ "\n")).map (fun l => "" ++ l)
      else []) ++ rest) ++ "\n"))
  · rfl
  rw [hA]
  simp [reSplit_isEmpty, empty_append]

/-- Witness for the amended C2 at a concrete body. -/
theorem c2_relative_import_resolved_and_inlined_witness :
    relParts ["r", "pkg", "x.py"] 1 (some "m") = ["r", "m"] ∧
    update (fsRel ["g = 5"] []) [["r"]] 40 ["r", "pkg", "x.py"] =
      .ok "g = 5\n" :=
  c2_relative_import_resolved_and_inlined ["g = 5"] [] (by decide)

/-! ### Claim C3 -/

/-- Claim C3 counterexample: an import whose specifier resolves to a
package directory (`r/p`, containing `__init__.py`) on which `bundle` does
not fail — directory-style resolution is performed by `find_module` and
the package's public module bodies are inlined.  No
`UnsupportedPackageImport` failure exists in the code. -/
theorem c3_package_import_counterexample :
    update (fsPkg ["g = 2"] ["print(p.a.g)"]) [["r"]] 40 ["r", "main.py"] =
      .ok "g = 2\nprint(p.a.g)\n" := rfl

/-- Claim C3 amended: a specifier naming a directory that contains
`__init__.py` is resolved by `find_module` to that directory (when no
same-named `.py` file shadows it), and `process_module` inlines the
package via `process_package`: each non-private `.py` member is bundled
(here the package's single public module `a.py`, with arbitrary body),
its text replacing the import line; `__init__.py` itself is skipped by
the underscore test. -/
theorem c3_package_import_resolved_and_inlined (aLines rest : List String)
    (h : ∀ l ∈ aLines, ('\n' : Char) ∉ l.data) :
    find_module (fsPkg aLines rest) "p" [["r"]] = some ["r", "p"] ∧
    update (fsPkg aLines rest) [["r"]] 40 ["r", "main.py"] =
      .ok (pyJoin "\n" (reSplit aLines ++ rest) ++ "\n") := by
  refine ⟨rfl, ?_⟩
  have hA : splitLines (pyJoin "\n" aLines ++ "\n") = reSplit aLines :=
    splitLines_pyJoin aLines h
  have hfil : List.filter (fun c => c ≠ "") [pyJoin "\n" aLines ++ "\n"] =
      [pyJoin "\n" aLines ++ "\n"] := by
    simp [List.filter_cons, pyJoin_newline_ne_empty aLines]
  have hP : pyJoin "\n"
      (List.filter (fun c => c ≠ "") [pyJoin "\n" aLines ++ "\n"]) =
      pyJoin "\n" aLines ++ "\n" := by
    rw [hfil]
    rfl
  trans (.ok (pyJoin "\n"
    ((if !(splitLines (pyJoin "\n"
          (List.filter (fun c => c ≠ "") [pyJoin "\n" aLines ++ "\n"]))).isEmpty
      then (splitLines (pyJoin "\n"
          (List.filter (fun c => c ≠ "") [pyJoin "\n" aLines ++ "\n"]))).map
          (fun l => "" ++ l)
      else []) ++ rest) ++ "\n"))
  · rfl
  rw [hP, hA]
  simp [reSplit_isEmpty, empty_append]

/-- Witness for the amended C3 at a concrete body. -/
theorem c3_package_import_resolved_and_inlined_witness :
    find_module (fsPkg ["h = 7"] []) "p" [["r"]] = some ["r", "p"] ∧
    update (fsPkg ["h = 7"] []) [["r"]] 40 ["r", "main.py"] =
      .ok "h = 7\n" :=
  c3_package_import_resolved_and_inlined ["h = 7"] [] (by decide)

/-! ### Claim C8 -/

/-- Claim C8: the dependency lister drops every reported dependency whose
filename stem is the name of any module in `sys.modules` (the loaded-module
table), not only genuine builtins — the filter applies `is_builtin_module`,
whose second disjunct tests `sys.modules`.  Only the entry path itself is
exempt (it is appended before the filter runs). -/
theorem c8_loaded_stem_excluded (builtins sysm : List String)
    (path basedir dep : Path) (pairs : List (String × List Path))
    (hstem : nameStem (pathName dep) ∈ sysm) (hne : dep ≠ path) :
    dep ∉ python_list_depending_files builtins sysm path basedir pairs := by
  intro hmem
  unfold python_list_depending_files at hmem
  rw [mem_sOfList] at hmem
  rcases List.mem_cons.mp hmem with h | h
  · exact hne h
  · have hk := mem_collectDeps builtins sysm basedir pairs dep h
    unfold depKept at hk
    rw [Bool.and_eq_true, Bool.not_eq_true'] at hk
    have hb : is_builtin_module builtins sysm (nameStem (pathName dep)) = true := by
      unfold is_builtin_module
      rw [Bool.or_eq_true]
      exact Or.inr (List.elem_eq_true_of_mem hstem)
    exact absurd (hb.symm.trans hk.1) (by simp)

/-- Witness for C8: with `sys.modules` containing `logging`, the local
file `b/logging.py` reported as a dependency of `b/main.py` is omitted
from the returned set. -/
theorem c8_loaded_stem_excluded_witness :
    (["b", "logging.py"] : Path) ∉
      python_list_depending_files [] ["logging"] ["b", "main.py"] ["b"]
        [("b/main.py", [["b", "logging.py"]])] :=
  c8_loaded_stem_excluded [] ["logging"] ["b", "main.py"] ["b"]
    ["b", "logging.py"] [("b/main.py", [["b", "logging.py"]])] (by decide)
    (by decide)

/-! ### Claim C9 -/

/-- Claim C9: when dependency-graph construction does not complete within
the platform-dependent timeout (5.0 seconds on Windows — the known slower
CI platform — and 1.0 elsewhere), the lister fails with the fatal
`RuntimeError` whose message names the entry file, and no dependency set
is produced (the `.error` branch carries no list; and since the call
raises, `functools.lru_cache` caches nothing for it). -/
theorem c9_timeout_fails_naming_entry (system : String) (path basedir : Path)
    (gd : Option ℚ) (dl : Except Unit (List (String × List Path)))
    (builtins sysm : List String)
    (h : gd = none ∨
      ∃ t, gd = some t ∧ (if system = "Windows" then (5 : ℚ) else 1) < t) :
    list_depending_files_run system path basedir gd dl builtins sysm =
      .error (timeoutMessage path) := by
  unfold list_depending_files_run
  rcases h with rfl | ⟨t, rfl, ht⟩
  · rfl
  · simp [ht]

/-- Witness for C9: on a non-Windows platform a graph construction that
would finish after 2 seconds exceeds the 1-second timeout and fails with
the message naming the entry file. -/
theorem c9_timeout_fails_naming_entry_witness :
    list_depending_files_run "Linux" ["b", "m.py"] ["b"] (some 2) (.ok [])
      [] [] = .error (timeoutMessage ["b", "m.py"]) :=
  c9_timeout_fails_naming_entry "Linux" ["b", "m.py"] ["b"] (some 2) (.ok [])
    [] [] (Or.inr ⟨2, rfl, by rw [if_neg (by decide : ¬("Linux" = "Windows"))]; norm_num⟩)

/-! ### Claim C10 -/

/-- Claim C10 counterexample: `isLibraryFile` does not require the file
extension to be the language's extension.  The filename `a.pyx` begins
with no private marker, is no verification file, and its `pathlib`
extension is `".pyx"`, not `".py"` — yet `is_library_file` accepts it,
because the code tests `'.py' in path.name` (substring), refuting the
claimed "iff". -/
theorem c10_extension_counterexample :
    is_library_file ["r", "a.pyx"] = true ∧
      is_library_file_claimed ["r", "a.pyx"] = false := ⟨rfl, rfl⟩

/-- Claim C10 amended: `isLibraryFile(path)` is true iff the filename is
nonempty and does not begin with the private marker `'_'`, does not
contain the verification marker `".test.py"`, and contains `".py"` as a
substring anywhere in the filename (rather than having `".py"` as its
extension — so e.g. `a.pyx` qualifies). -/
theorem c10_is_library_file_amended (path : Path) :
    is_library_file path = true ↔
      (∃ c cs, (pathName path).data = c :: cs ∧ c ≠ '_')
      ∧ ¬(∃ p t, (pathName path).data = p ++ ".test.py".data ++ t)
      ∧ (∃ p t, (pathName path).data = p ++ ".py".data ++ t) := by
  unfold is_library_file
  cases hname : (pathName path).data with
  | nil =>
    simp only [hname]
    constructor
    · intro hfalse
      exact absurd hfalse (by simp)
    · rintro ⟨⟨c, cs, hcc, -⟩, -, -⟩
      exact absurd hcc (by simp)
  | cons c cs =>
    rw [show strIn ".test.py" (pathName path) =
          hasSubBlock ".test.py".data (c :: cs) by rw [strIn, hname],
        show strIn ".py" (pathName path) =
          hasSubBlock ".py".data (c :: cs) by rw [strIn, hname]]
    simp only [Bool.and_eq_true, bne_iff_ne, Bool.not_eq_true',
      ← Bool.not_eq_true (hasSubBlock ".test.py".data (c :: cs)),
      hasSubBlock_iff, hname]
    constructor
    · rintro ⟨⟨hc, hnt⟩, hpy⟩
      exact ⟨⟨c, cs, rfl, hc⟩, hnt, hpy⟩
    · rintro ⟨⟨c2, cs2, hcc, hc2⟩, hnt, hpy⟩
      obtain ⟨rfl, rfl⟩ : c2 = c ∧ cs2 = cs := by
        rw [List.cons.injEq] at hcc
        exact ⟨hcc.1.symm, hcc.2.symm⟩
      exact ⟨⟨hc2, hnt⟩, hpy⟩

end PyVerify

